import Mathlib

/-!
Verification of the pre-gym tracker component (`src/src/App.tsx`).

The component keeps two pieces of state: a progress store
(`data : Record<number, Record<string, boolean>>` keyed by day number and
exercise name) and a session sequencer (current exercise index, per-exercise
elapsed-second timers, per-exercise running flags, auto-rest configuration and
rest countdown).  Everything below is a shallow embedding of the functions of
that file, translated one-for-one: JS objects with a default become total
functions (absent key reads as the default), the optional `duration` field
becomes `Option Nat`, and the two distinct JS defaulting idioms
(`duration || 30` vs `duration ?? 30`) are modelled by two distinct functions.
-/

namespace MyGym

/-- One catalog entry (`type Exercise` in the source): a unique name, display
instructions and an optional duration in seconds. -/
structure Exercise where
  name : String
  instructions : String
  duration : Option Nat
deriving DecidableEq, Repr

/-- The fixed 18-exercise catalog (`const exercises` in the source). -/
def exercises : List Exercise := [
  ⟨"Cat-Cow", "Start on hands and knees. Alternate arching and rounding your back with breath.", some 30⟩,
  ⟨"Ankle Rocking", "Stand tall and rock forward and back on your ankles, stretching calves and ankles.", some 30⟩,
  ⟨"90/90 Hip Stretch", "Sit with front leg at 90°, back leg at 90°. Lean forward to stretch hips.", some 45⟩,
  ⟨"Deep Squat Hold", "Drop into a deep squat, chest tall, hold position while breathing.", some 45⟩,
  ⟨"Hip Flexor Stretch", "Kneel with one leg forward, press hips gently forward to stretch hip flexors.", some 30⟩,
  ⟨"Cossack Squat", "Spread feet wide, shift into one leg while other leg is straight. Alternate sides.", some 30⟩,
  ⟨"Glute Bridge", "Lie on your back, knees bent, lift hips while squeezing glutes.", some 40⟩,
  ⟨"Glute Bridge March", "From bridge, lift one knee towards chest, alternating legs.", some 40⟩,
  ⟨"Dead Bug", "Lie on back, arms and legs up. Lower opposite arm and leg, return, switch sides.", some 40⟩,
  ⟨"Bird Dog", "On hands and knees, extend opposite arm and leg, hold, return, alternate.", some 30⟩,
  ⟨"Plank", "Forearms down, body straight. Hold core tight without sagging hips.", some 60⟩,
  ⟨"Side Plank", "Lie on side, lift hips, balancing on elbow and feet. Hold position.", some 45⟩,
  ⟨"Hollow Hold", "Lie on back, lift shoulders and legs off floor, lower back pressed down.", some 40⟩,
  ⟨"Superman Hold", "Lie on stomach, lift arms and legs up while squeezing back and glutes.", some 30⟩,
  ⟨"Push-Up", "Hands under shoulders, lower chest to floor, push back up.", some 45⟩,
  ⟨"Step-Ups", "Step onto a stable surface, driving through lead leg. Alternate legs.", some 60⟩,
  ⟨"Squat to Chair", "Stand in front of chair, squat until seated, then stand back up.", some 45⟩,
  ⟨"Brisk Walk / Cardio", "Walk quickly or do light cardio to elevate heart rate.", some 120⟩]

/-- A day record: exercise name to completion flag.  A JS object read with an
absent key yields a falsy value, so the record is a total function with
default `false`. -/
abbrev DayRec := String → Bool

/-- The progress store `data`: day number to optional day record.  `none`
models an absent key (`data[d]` undefined), which matters because the source
tests `data[d]` for truthiness in several places. -/
abbrev GymData := Nat → Option DayRec

/-- Read the completion flag of one day/exercise pair, with the JS defaulting
(`(data[d] || {})[name]`, absent reads as false). -/
def completionStatus (data : GymData) (d : Nat) (name : String) : Bool :=
  ((data d).getD (fun _ => false)) name

/-- The source function `toggleComplete`: copy (or create) the day record and flip
the flag for `exercise`.  The source captures the current `day` from state; it
is an explicit argument here. -/
def toggleComplete (day : Nat) (exercise : String) (data : GymData) : GymData :=
  let dayData : DayRec := (data day).getD (fun _ => false)
  let newDay : DayRec := fun n => if n = exercise then !(dayData exercise) else dayData n
  fun d => if d = day then some newDay else data d

/-- The source function `dayCompletionCount`: `exercises.reduce((acc, ex) =>
dayData[ex.name] ? acc + 1 : acc, 0)` over `dayData = data[d] || {}`. -/
def dayCompletionCount (data : GymData) (d : Nat) : Nat :=
  let dayData : DayRec := (data d).getD (fun _ => false)
  exercises.foldl (fun acc ex => if dayData ex.name then acc + 1 else acc) 0

/-- One entry of the weekly rollup (`{name, completed}` in the source). -/
structure WeekEntry where
  name : String
  completed : Nat
deriving DecidableEq, Repr

/-- The source function `makeWeeklyData`: for `w = 0..3`, `start = w*7+1`,
`end = min(start+6, 30)`, count the days `d` in `[start, end]` with
`data[d]` present and `dayCompletionCount(d) > 0`. -/
def makeWeeklyData (data : GymData) : List WeekEntry :=
  (List.range 4).map fun w =>
    let start := w * 7 + 1
    let stop := min (start + 6) 30
    let completedDays :=
      ((List.range' start (stop + 1 - start)).filter
        (fun d => (data d).isSome && decide (dayCompletionCount data d > 0))).length
    { name := "W" ++ toString (w + 1), completed := completedDays }

/-- The source function `computeStreak`: walk from the reference day downward,
counting while `data[d] && dayCompletionCount(d) === exercises.length`, and
stop at the first failure or below day 1. -/
def computeStreak (data : GymData) : Nat → Nat
  | 0 => 0
  | d + 1 =>
    if (data (d + 1)).isSome ∧ dayCompletionCount data (d + 1) = exercises.length then
      computeStreak data d + 1
    else 0

/-- The source function `resetDay`: `delete copy[d]`, removing the day record. -/
def resetDay (d : Nat) (data : GymData) : GymData :=
  fun x => if x = d then none else data x

/-- Force-set one day/exercise pair to complete; this is the `setData` update
performed inside the tick callback of `startIntervalFor` when the timer
reaches the duration. -/
def markComplete (day : Nat) (name : String) (data : GymData) : GymData :=
  let dayData : DayRec := (data day).getD (fun _ => false)
  let newDay : DayRec := fun n => if n = name then true else dayData n
  fun d => if d = day then some newDay else data d

/-- JS `exercise.duration || 30` (used inside the tick callback of
`startIntervalFor`): `||` replaces any falsy value, so both a missing
duration and a duration of `0` yield `30`. -/
def durOr30 (ex : Exercise) : Nat :=
  match ex.duration with
  | some d => if d = 0 then 30 else d
  | none => 30

/-- JS `exercise.duration ?? 30` (used by the auto-advance effect and the
start/reset handlers): `??` replaces only a missing duration. -/
def durNull30 (ex : Exercise) : Nat :=
  match ex.duration with
  | some d => d
  | none => 30

/-- The component state relevant to the claims: current day, progress store,
sequencer index, per-exercise timers and running flags, and the auto-rest
configuration and countdown. -/
@[ext]
structure AppState where
  day : Nat
  data : GymData
  currentExerciseIndex : Nat
  timers : String → Nat
  running : String → Bool
  autoRest : Bool
  restSeconds : Nat
  isResting : Bool
  restTimer : Nat

/-- A placeholder exercise used only to totalize catalog indexing. -/
def blankExercise : Exercise := ⟨"", "", none⟩

/-- The source read `exercises[currentExerciseIndex]` (the index is kept in
range by the handlers, so the default is never read in the claims). -/
def currentExercise (s : AppState) : Exercise :=
  exercises.getD s.currentExerciseIndex blankExercise

/-- The body of the one-second interval callback installed by
`startIntervalFor`: increment the timer (`(prev[name] || 0) + 1`); if the
result reaches `exercise.duration || 30` the timer is pinned at that duration
and the exercise is force-marked complete for the current day. -/
def exerciseTick (ex : Exercise) (s : AppState) : AppState :=
  let elapsed := s.timers ex.name + 1
  let finished := durOr30 ex ≤ elapsed
  { s with
    timers := fun n =>
      if n = ex.name then (if finished then durOr30 ex else elapsed) else s.timers n
    data := if finished then markComplete s.day ex.name s.data else s.data }

/-- The source function `stopIntervalFor`: clear the interval handle and set
`running[name] = false` (only the state effect is modelled; the handle map
mirrors the running map). -/
def stopIntervalFor (name : String) (s : AppState) : AppState :=
  { s with running := fun n => if n = name then false else s.running n }

/-- The state effect of `startIntervalFor`: register the interval and set
`running[name] = true`.  The source's early return when a handle already
exists leaves `running[name]` true either way, so it is not modelled
separately. -/
def startIntervalFor (ex : Exercise) (s : AppState) : AppState :=
  { s with running := fun n => if n = ex.name then true else s.running n }

/-- The auto-advance `useEffect` from the source: if the current exercise's
elapsed time has reached `duration ?? 30`, stop its interval; then either
start a rest (`autoRest` on and not the last exercise), advance the index by
one (not the last exercise), or do nothing more (last exercise). -/
def autoAdvanceEffect (s : AppState) : AppState :=
  let ex := currentExercise s
  let duration := durNull30 ex
  let elapsed := s.timers ex.name
  if duration ≤ elapsed then
    let s1 := stopIntervalFor ex.name s
    if s1.autoRest ∧ s1.currentExerciseIndex < exercises.length - 1 then
      { s1 with isResting := true, restTimer := s1.restSeconds }
    else if s1.currentExerciseIndex < exercises.length - 1 then
      { s1 with currentExerciseIndex := s1.currentExerciseIndex + 1 }
    else s1
  else s

/-- The body of the rest interval callback: while the countdown is above 1,
decrement it; at 1 (or below) clear the rest state, advance the index
(capped at the last index), zero the next exercise's timer and start its
interval. -/
def restTick (s : AppState) : AppState :=
  if s.restTimer ≤ 1 then
    let nextIdx := min (s.currentExerciseIndex + 1) (exercises.length - 1)
    let nextEx := exercises.getD nextIdx blankExercise
    startIntervalFor nextEx
      { s with
        isResting := false
        restTimer := 0
        currentExerciseIndex := nextIdx
        timers := fun n => if n = nextEx.name then 0 else s.timers n }
  else
    { s with restTimer := s.restTimer - 1 }

/-- One second of real time in guided mode, under the source's concurrency
contract (§5 of its behavior: at most the current exercise's interval and the
rest interval are live).  The due interval callback fires, and the
auto-advance effect re-runs afterwards exactly when one of its dependencies
(`timers`, `currentExerciseIndex`) changed: after an exercise tick, and after
the rest countdown ends. -/
def secondStep (s : AppState) : AppState :=
  if s.isResting then
    if s.restTimer ≤ 1 then autoAdvanceEffect (restTick s) else restTick s
  else if s.running (currentExercise s).name then
    autoAdvanceEffect (exerciseTick (currentExercise s) s)
  else s

/-- The source function `handlePrev`: when not at the first exercise, stop the
current exercise's interval and decrement the index. -/
def handlePrev (s : AppState) : AppState :=
  if 0 < s.currentExerciseIndex then
    { stopIntervalFor (currentExercise s).name s with
        currentExerciseIndex := s.currentExerciseIndex - 1 }
  else s

/-- The source function `handleNext`: when not at the last exercise, stop the
current exercise's interval and increment the index. -/
def handleNext (s : AppState) : AppState :=
  if s.currentExerciseIndex < exercises.length - 1 then
    { stopIntervalFor (currentExercise s).name s with
        currentExerciseIndex := s.currentExerciseIndex + 1 }
  else s

/-- The component's initial state: day 1, empty progress store, index 0, all
timers 0, nothing running, `autoRest = true`, `restSeconds = 20`. -/
def initialState : AppState :=
  { day := 1
    data := fun _ => none
    currentExerciseIndex := 0
    timers := fun _ => 0
    running := fun _ => false
    autoRest := true
    restSeconds := 20
    isResting := false
    restTimer := 0 }

/-- A runtime value as `JSON.parse` can produce it: null, boolean, number,
string, array or object.  Objects are association lists (`JSON.parse` yields
unique keys; lookup takes the first match).  JS numbers are modelled as
integers; fractional values are outside this embedding. -/
inductive JsValue where
  | jNull
  | jBool (b : Bool)
  | jNum (n : Int)
  | jStr (s : String)
  | jArr (items : List JsValue)
  | jObj (fields : List (String × JsValue))

/-- JS truthiness: null, `false`, `0` and `""` are falsy; every array and
object (even empty) is truthy. -/
def truthy : JsValue → Bool
  | .jNull => false
  | .jBool b => b
  | .jNum n => decide (n ≠ 0)
  | .jStr s => decide (s ≠ "")
  | .jArr _ => true
  | .jObj _ => true

/-- Property access `v.key`: a named property exists only on objects;
`none` is JS `undefined`.  (Access on `null` throws instead; the load
function handles that case separately.) -/
def jsGet (v : JsValue) (key : String) : Option JsValue :=
  match v with
  | .jObj fields => (fields.find? (fun p => p.1 == key)).map Prod.snd
  | _ => none

/-- Truthiness of a property read, with `undefined` falsy. -/
def truthyOpt : Option JsValue → Bool
  | none => false
  | some v => truthy v

/-- The own enumerable entries contributed by `...x` in an object literal:
an object spreads its fields, an array its index-keyed items, a string its
index-keyed characters, any other primitive nothing. -/
def spreadIntoObject : JsValue → List (String × JsValue)
  | .jObj fields => fields
  | .jArr items => items.enum.map (fun p => (toString p.1, p.2))
  | .jStr s =>
      (s.toList.enum).map (fun p => (toString p.1, JsValue.jStr (String.mk [p.2])))
  | _ => []

/-- The object literal `{ ...t, ...x }`: keys of `x` override keys of `t`.
With first-match lookup, listing `x` first makes its entries shadow `t`. -/
def mergeFields (t x : List (String × JsValue)) : List (String × JsValue) := x ++ t

/-- Lookup in an object's field list (first match, `none` = `undefined`). -/
def fieldGet (fields : List (String × JsValue)) (key : String) : Option JsValue :=
  (fields.find? (fun p => p.1 == key)).map Prod.snd

/-- The five state slots the load effect writes, at the JS-value level:
`setData`/`setTimers`/`setRunning` install whatever value passed the
truthiness test, so these slots can hold arbitrary (possibly wrong-shaped)
values after a load. -/
structure LoadedSlots where
  data : JsValue
  timers : List (String × JsValue)
  running : List (String × JsValue)
  autoRest : Bool
  restSeconds : Int

/-- The initial `timers` object: every exercise name mapped to `0`. -/
def defaultTimersFields : List (String × JsValue) :=
  exercises.map (fun e => (e.name, JsValue.jNum 0))

/-- The initial `running` object: every exercise name mapped to `false`. -/
def defaultRunningFields : List (String × JsValue) :=
  exercises.map (fun e => (e.name, JsValue.jBool false))

/-- The slots before the load effect runs: `data = {}`, zero timers, nothing
running, `autoRest = true`, `restSeconds = 20`. -/
def defaultSlots : LoadedSlots :=
  { data := JsValue.jObj []
    timers := defaultTimersFields
    running := defaultRunningFields
    autoRest := true
    restSeconds := 20 }

/-- The body of the load effect for a non-null parsed value, slot by slot
(the source's five sequential sets write disjoint slots, so they are
translated slot-wise):
`if (parsed.data) setData(parsed.data)` installs any truthy value as-is;
`if (parsed.timers) setTimers(t => ({ ...t, ...parsed.timers }))` spreads any
truthy value over the defaults (likewise `running`); `autoRest` and
`restSeconds` are guarded by `typeof` checks and stay well-typed. -/
def loadJsCore (v : JsValue) : LoadedSlots :=
  { data :=
      match jsGet v "data" with
      | some d => if truthy d then d else defaultSlots.data
      | none => defaultSlots.data
    timers :=
      match jsGet v "timers" with
      | some t => if truthy t
          then mergeFields defaultTimersFields (spreadIntoObject t)
          else defaultSlots.timers
      | none => defaultSlots.timers
    running :=
      match jsGet v "running" with
      | some r => if truthy r
          then mergeFields defaultRunningFields (spreadIntoObject r)
          else defaultSlots.running
      | none => defaultSlots.running
    autoRest :=
      match jsGet v "autoRest" with
      | some (JsValue.jBool b) => b
      | _ => defaultSlots.autoRest
    restSeconds :=
      match jsGet v "restSeconds" with
      | some (JsValue.jNum n) => n
      | _ => defaultSlots.restSeconds }

/-- The load `useEffect` from the source.  `raw = none` is a missing storage
key or a `JSON.parse` throw (swallowed by the `catch`); `JSON.parse` of
`"null"` yields `null`, on which the first property access throws before any
set runs, so the `catch` leaves every slot at its default too.  Any other
parse outcome is processed by `loadJsCore`. -/
def loadJs (raw : Option JsValue) : LoadedSlots :=
  match raw with
  | none => defaultSlots
  | some JsValue.jNull => defaultSlots
  | some v => loadJsCore v

/-- The parse of `'{"timers":{"Cat-Cow":"abc"},"data":"garbage"}'`: both
fields are truthy but wrong-shaped. -/
def wrongShapeParsed : JsValue :=
  JsValue.jObj [("timers", JsValue.jObj [("Cat-Cow", JsValue.jStr "abc")]),
                ("data", JsValue.jStr "garbage")]

/-! ### Concrete states used by scenarios, counterexamples and witnesses -/

/-- Progress store in which exactly day 29 has a completion (the Plank). -/
def dataOnly29 : GymData :=
  fun d => if d = 29 then some (fun n => n == "Plank") else none

/-- Progress store in which exactly day 10 has a completion (the Plank). -/
def dataOnly10 : GymData :=
  fun d => if d = 10 then some (fun n => n == "Plank") else none

/-- Progress store in which days 5, 6 and 7 are fully complete and every
other day has no record. -/
def data567 : GymData :=
  fun d => if d = 5 ∨ d = 6 ∨ d = 7 then some (fun _ => true) else none

/-- A hypothetical catalog entry with no configured duration (the optional
`duration` field of the `Exercise` type left out). -/
def freeformExercise : Exercise := ⟨"Freeform", "", none⟩

/-- A state whose only nonzero timer is 29 seconds on the no-duration
exercise. -/
def freeformAt29 : AppState :=
  { initialState with timers := fun n => if n == "Freeform" then 29 else 0 }

/-! ### Helper lemmas -/

/-- A day with no record has completion count 0. -/
theorem dayCompletionCount_of_none (data : GymData) (d : Nat) (h : data d = none) :
    dayCompletionCount data d = 0 := by
  simp only [dayCompletionCount, h, Option.getD_none]
  rfl

/-- In the weekly-rollup filter, the `data[d]` truthiness test is subsumed by
the positive-count test. -/
theorem weekly_filter_pred (data : GymData) (d : Nat) :
    ((data d).isSome && decide (dayCompletionCount data d > 0))
      = decide (dayCompletionCount data d > 0) := by
  cases h : data d with
  | none => simp [dayCompletionCount_of_none data d h]
  | some r => simp

/-- Force-marking an exercise makes its completion flag read true. -/
theorem completionStatus_markComplete (data : GymData) (day : Nat) (name : String) :
    completionStatus (markComplete day name data) day name = true := by
  simp [completionStatus, markComplete]

/-! ### C5: toggleComplete is an involution on completion status -/

/-- C5: for every day d in 1..30, exercise e and prior store, toggling
(d, e) twice leaves the completion status of every day/exercise pair equal
to its original value. -/
theorem toggleComplete_involution (data : GymData) (d : Nat) (e : String)
    (d2 : Nat) (e2 : String) (h1 : 1 ≤ d) (h2 : d ≤ 30) :
    completionStatus (toggleComplete d e (toggleComplete d e data)) d2 e2
      = completionStatus data d2 e2 := by
  by_cases hd : d2 = d
  · subst hd
    by_cases he : e2 = e
    · subst he
      simp [completionStatus, toggleComplete]
    · simp [completionStatus, toggleComplete, he]
  · simp [completionStatus, toggleComplete, hd]

/-- Witness for C5 at day 5, exercise Plank, empty store, pair (7, Cat-Cow). -/
theorem toggleComplete_involution_witness :
    1 ≤ 5 ∧ 5 ≤ 30 ∧
    completionStatus
      (toggleComplete 5 "Plank" (toggleComplete 5 "Plank" (fun _ => none)))
      7 "Cat-Cow" = completionStatus (fun _ => none) 7 "Cat-Cow" :=
  ⟨by decide, by decide,
    toggleComplete_involution (fun _ => none) 5 "Plank" 7 "Cat-Cow"
      (by decide) (by decide)⟩

/-! ### C7: clearDay removes the record, is local and idempotent -/

/-- C7: clearing day d zeroes its completion count, leaves every other day's
record unchanged, is the identity pointwise when day d already has no
record, and is idempotent. -/
theorem resetDay_spec (data : GymData) (d y : Nat) (hy : y ≠ d) :
    dayCompletionCount (resetDay d data) d = 0 ∧
    resetDay d data y = data y ∧
    (data d = none → ∀ x, resetDay d data x = data x) ∧
    (∀ x, resetDay d (resetDay d data) x = resetDay d data x) := by
  refine ⟨?_, ?_, ?_, ?_⟩
  · apply dayCompletionCount_of_none
    simp [resetDay]
  · simp [resetDay, hy]
  · intro h x
    by_cases hx : x = d
    · subst hx; simp [resetDay, h]
    · simp [resetDay, hx]
  · intro x
    by_cases hx : x = d <;> simp [resetDay, hx]

/-- Witness for C7 at d = 3, y = 5, empty store. -/
theorem resetDay_spec_witness :
    (5 : Nat) ≠ 3 ∧
    dayCompletionCount (resetDay 3 (fun _ => none)) 3 = 0 ∧
    resetDay 3 (fun _ => none) 5 = (fun _ : Nat => none) 5 :=
  ⟨by decide,
    (resetDay_spec (fun _ => none) 3 5 (by decide)).1,
    (resetDay_spec (fun _ => none) 3 5 (by decide)).2.1⟩

/-! ### C10: a tick clamps the timer at the configured duration -/

/-- C10: for an exercise with configured positive duration D, one tick takes
the timer to `min (elapsed + 1) D`, so the timer never exceeds D after a
tick. -/
theorem exerciseTick_clamps (ex : Exercise) (D : Nat) (s : AppState)
    (hD : ex.duration = some D) (hpos : 0 < D) :
    (exerciseTick ex s).timers ex.name = min (s.timers ex.name + 1) D ∧
    (exerciseTick ex s).timers ex.name ≤ D := by
  have hdur : durOr30 ex = D := by
    simp only [durOr30, hD]
    rw [if_neg (by omega)]
  have h1 : (exerciseTick ex s).timers ex.name
      = if D ≤ s.timers ex.name + 1 then D else s.timers ex.name + 1 := by
    simp [exerciseTick, hdur]
  rw [h1]
  constructor
  · rcases le_or_lt D (s.timers ex.name + 1) with h | h
    · rw [if_pos h]; omega
    · rw [if_neg (by omega)]; omega
  · rcases le_or_lt D (s.timers ex.name + 1) with h | h
    · rw [if_pos h]
    · rw [if_neg (by omega)]; omega

/-- Witness for C10 at the first catalog exercise (Cat-Cow, 30 s) in the
initial state. -/
theorem exerciseTick_clamps_witness :
    (exercises.getD 0 blankExercise).duration = some 30 ∧ 0 < 30 ∧
    (exerciseTick (exercises.getD 0 blankExercise) initialState).timers
        (exercises.getD 0 blankExercise).name
      = min (initialState.timers (exercises.getD 0 blankExercise).name + 1) 30 :=
  ⟨by decide, by decide,
    (exerciseTick_clamps (exercises.getD 0 blankExercise) 30 initialState
      (by decide) (by decide)).1⟩

/-! ### C2: exercises without a duration -/

/-- Counterexample to C2: the tick callback evaluates
`exercise.duration || 30`, so an exercise with no configured duration is
treated as a 30-second exercise.  At 29 elapsed seconds one tick pins the
timer at 30 (it does not grow without bound: a further tick leaves it at 30)
and force-marks the exercise complete for the current day. -/
theorem noDuration_tick_completes :
    freeformExercise.duration = none ∧
    (exerciseTick freeformExercise freeformAt29).timers "Freeform" = 30 ∧
    (exerciseTick freeformExercise
        (exerciseTick freeformExercise freeformAt29)).timers "Freeform" = 30 ∧
    completionStatus (exerciseTick freeformExercise freeformAt29).data
      freeformAt29.day "Freeform" = true ∧
    completionStatus freeformAt29.data freeformAt29.day "Freeform" = false := by
  decide

/-- C2 amended: an exercise without a configured duration behaves exactly
like a 30-second exercise: both defaulting reads yield 30, a tick takes the
timer to `min (elapsed + 1) 30`, and the tick that reaches 30 force-marks the
exercise complete (so it also participates in auto-advance and auto-rest
through the 30-second default). -/
theorem noDuration_defaults_to_30 (ex : Exercise) (s : AppState)
    (h : ex.duration = none) :
    durOr30 ex = 30 ∧ durNull30 ex = 30 ∧
    (exerciseTick ex s).timers ex.name = min (s.timers ex.name + 1) 30 ∧
    (30 ≤ s.timers ex.name + 1 →
      completionStatus (exerciseTick ex s).data s.day ex.name = true) := by
  have hdur : durOr30 ex = 30 := by simp [durOr30, h]
  refine ⟨hdur, by simp [durNull30, h], ?_, ?_⟩
  · have h1 : (exerciseTick ex s).timers ex.name
        = if 30 ≤ s.timers ex.name + 1 then 30 else s.timers ex.name + 1 := by
      simp [exerciseTick, hdur]
    rw [h1]
    rcases le_or_lt 30 (s.timers ex.name + 1) with h2 | h2
    · rw [if_pos h2]; omega
    · rw [if_neg (by omega)]; omega
  · intro h2
    have h3 : (exerciseTick ex s).data = markComplete s.day ex.name s.data := by
      simp [exerciseTick, hdur, h2]
    rw [h3]
    exact completionStatus_markComplete s.data s.day ex.name

/-- Witness for C2's amended theorem at the concrete no-duration exercise. -/
theorem noDuration_defaults_to_30_witness :
    freeformExercise.duration = none ∧
    (exerciseTick freeformExercise freeformAt29).timers freeformExercise.name
      = min (freeformAt29.timers freeformExercise.name + 1) 30 :=
  ⟨rfl, (noDuration_defaults_to_30 freeformExercise freeformAt29 rfl).2.2.1⟩

/-! ### C6: the streak computation -/

/-- The streak as the spec words it: walk backward from the reference day
down to day 1, counting while the day is fully complete
(`completionCount(day) = catalog size`; a day with no record has count 0 and
so is not fully complete), and stop at the first failure. -/
def currentStreakSpec (data : GymData) : Nat → Nat
  | 0 => 0
  | d + 1 =>
    if dayCompletionCount data (d + 1) = exercises.length then
      currentStreakSpec data d + 1
    else 0

/-- C6: `computeStreak` computes exactly the backward walk described by the
spec, and the concrete scenario holds: with days 5, 6, 7 fully complete and
day 4 without a record, the streak at day 7 is 3 and at day 4 is 0. -/
theorem computeStreak_correct (data : GymData) (r : Nat) :
    computeStreak data r = currentStreakSpec data r ∧
    computeStreak data567 7 = 3 ∧ computeStreak data567 4 = 0 := by
  refine ⟨?_, by decide, by decide⟩
  induction r with
  | zero => rfl
  | succ d ih =>
    by_cases h : dayCompletionCount data (d + 1) = exercises.length
    · have hs : (data (d + 1)).isSome = true := by
        rcases hd : data (d + 1) with _ | rec
        · rw [dayCompletionCount_of_none data (d + 1) hd] at h
          exact absurd h (by decide)
        · rfl
      simp [computeStreak, currentStreakSpec, h, hs, ih]
    · simp [computeStreak, currentStreakSpec, h]

/-! ### C1: the weekly rollup -/

/-- Counterexample to C1: day 29 has a completion, yet every window of the
rollup reports 0, because the fourth window is days 22..28
(`end = min(start + 6, 30) = 28` for `w = 3`), not 22..30 as claimed; under
the claim the fourth count would be 1. -/
theorem makeWeeklyData_misses_day29 :
    0 < dayCompletionCount dataOnly29 29 ∧
    (makeWeeklyData dataOnly29).map WeekEntry.completed = [0, 0, 0, 0] := by
  constructor
  · decide
  · decide

/-- C1 amended: the rollup produces the four windows W1..W4 covering days
1–7, 8–14, 15–21 and 22–28 (seven days each); each window reports the number
of its days with `completionCount(day) > 0`; days 29 and 30 belong to no
window.  The only-day-10 scenario still yields counts [0, 1, 0, 0]. -/
theorem makeWeeklyData_windows (data : GymData) :
    (makeWeeklyData data).map WeekEntry.name = ["W1", "W2", "W3", "W4"] ∧
    (makeWeeklyData data).map WeekEntry.completed =
      (List.range 4).map (fun w =>
        ((List.range' (w * 7 + 1) 7).filter
          (fun d => decide (dayCompletionCount data d > 0))).length) ∧
    (makeWeeklyData dataOnly10).map WeekEntry.completed = [0, 1, 0, 0] := by
  have hpred : (fun d => (data d).isSome && decide (dayCompletionCount data d > 0))
      = fun d => decide (dayCompletionCount data d > 0) :=
    funext fun d => weekly_filter_pred data d
  refine ⟨rfl, ?_, by decide⟩
  simp only [makeWeeklyData, hpred, List.map_map]
  refine List.map_congr_left ?_
  intro w hw
  have hw4 : w < 4 := List.mem_range.mp hw
  interval_cases w <;> rfl

/-! ### C9: loading a malformed or missing snapshot -/

/-- A non-null parsed value is processed by the body of the load effect. -/
theorem loadJs_some (v : JsValue) (h : v ≠ JsValue.jNull) :
    loadJs (some v) = loadJsCore v := by
  cases v <;> first | exact absurd rfl h | rfl

/-- Counterexample to C9: a wrong-shape snapshot does not fall back to the
defaults.  The parse of `'{"timers":{"Cat-Cow":"abc"},"data":"garbage"}'`
passes both truthiness checks, so the string `"abc"` is installed as the
Cat-Cow timer (the default is `0`) and the string `"garbage"` replaces the
`data` map wholesale — the loaded state differs from the default state in
exactly the fields the snapshot supplied invalidly, where the claim demands
equality with the defaults. -/
theorem load_wrongShape_installed :
    truthy (JsValue.jObj [("Cat-Cow", JsValue.jStr "abc")]) = true ∧
    fieldGet (loadJs (some wrongShapeParsed)).timers "Cat-Cow"
      = some (JsValue.jStr "abc") ∧
    fieldGet defaultSlots.timers "Cat-Cow" = some (JsValue.jNum 0) ∧
    fieldGet (loadJs (some wrongShapeParsed)).timers "Cat-Cow"
      ≠ fieldGet defaultSlots.timers "Cat-Cow" ∧
    (loadJs (some wrongShapeParsed)).data = JsValue.jStr "garbage" ∧
    (loadJs (some wrongShapeParsed)).data ≠ defaultSlots.data := by
  refine ⟨rfl, rfl, rfl, ?_, rfl, ?_⟩
  · intro h
    rw [show fieldGet (loadJs (some wrongShapeParsed)).timers "Cat-Cow"
        = some (JsValue.jStr "abc") from rfl] at h
    rw [show fieldGet defaultSlots.timers "Cat-Cow"
        = some (JsValue.jNum 0) from rfl] at h
    exact JsValue.noConfusion (Option.some.inj h)
  · intro h
    rw [show (loadJs (some wrongShapeParsed)).data = JsValue.jStr "garbage"
        from rfl] at h
    rw [show defaultSlots.data = JsValue.jObj [] from rfl] at h
    exact JsValue.noConfusion h

/-- C9 amended: loading is a total function of the parse outcome, so it
never fails; a missing or unparseable snapshot — and a parsed `null`, whose
first property access throws into the `catch` — leaves every slot at its
default; a field keeps its default exactly when it fails the code's own
check: `data`/`timers`/`running` when absent or falsy, `autoRest` when not a
boolean, `restSeconds` when not a number.  A truthy `data` field is installed
as-is, and truthy `timers`/`running` fields are spread over the defaults,
even when wrong-shaped — such fields do NOT fall back to the defaults. -/
theorem loadJs_spec (p : Option JsValue) :
    (p = none → loadJs p = defaultSlots) ∧
    (p = some JsValue.jNull → loadJs p = defaultSlots) ∧
    (∀ v, p = some v → v ≠ JsValue.jNull →
      ((truthyOpt (jsGet v "data") = false → (loadJs p).data = defaultSlots.data) ∧
       (∀ d, jsGet v "data" = some d → truthy d = true → (loadJs p).data = d)) ∧
      ((truthyOpt (jsGet v "timers") = false →
          (loadJs p).timers = defaultSlots.timers) ∧
       (∀ t, jsGet v "timers" = some t → truthy t = true →
          (loadJs p).timers = mergeFields defaultTimersFields (spreadIntoObject t))) ∧
      ((truthyOpt (jsGet v "running") = false →
          (loadJs p).running = defaultSlots.running) ∧
       (∀ r, jsGet v "running" = some r → truthy r = true →
          (loadJs p).running = mergeFields defaultRunningFields (spreadIntoObject r))) ∧
      (((∀ b, jsGet v "autoRest" ≠ some (JsValue.jBool b)) →
          (loadJs p).autoRest = defaultSlots.autoRest) ∧
       (∀ b, jsGet v "autoRest" = some (JsValue.jBool b) → (loadJs p).autoRest = b)) ∧
      (((∀ n, jsGet v "restSeconds" ≠ some (JsValue.jNum n)) →
          (loadJs p).restSeconds = defaultSlots.restSeconds) ∧
       (∀ n, jsGet v "restSeconds" = some (JsValue.jNum n) →
          (loadJs p).restSeconds = n))) := by
  refine ⟨?_, ?_, ?_⟩
  · rintro rfl; rfl
  · rintro rfl; rfl
  · rintro v rfl hnull
    rw [loadJs_some v hnull]
    refine ⟨⟨?_, ?_⟩, ⟨?_, ?_⟩, ⟨?_, ?_⟩, ⟨?_, ?_⟩, ⟨?_, ?_⟩⟩
    · intro h
      cases hd : jsGet v "data" with
      | none => simp [loadJsCore, hd]
      | some d =>
        rw [hd] at h
        simp only [truthyOpt] at h
        simp [loadJsCore, hd, h]
    · intro d hd htr
      simp [loadJsCore, hd, htr]
    · intro h
      cases hd : jsGet v "timers" with
      | none => simp [loadJsCore, hd]
      | some t =>
        rw [hd] at h
        simp only [truthyOpt] at h
        simp [loadJsCore, hd, h]
    · intro t hd htr
      simp [loadJsCore, hd, htr]
    · intro h
      cases hd : jsGet v "running" with
      | none => simp [loadJsCore, hd]
      | some r =>
        rw [hd] at h
        simp only [truthyOpt] at h
        simp [loadJsCore, hd, h]
    · intro r hd htr
      simp [loadJsCore, hd, htr]
    · intro h
      cases ha : jsGet v "autoRest" with
      | none => simp [loadJsCore, ha]
      | some w =>
        cases w <;> first | exact absurd ha (h _) | simp [loadJsCore, ha]
    · intro b hb
      simp [loadJsCore, hb]
    · intro h
      cases ha : jsGet v "restSeconds" with
      | none => simp [loadJsCore, ha]
      | some w =>
        cases w <;> first | exact absurd ha (h _) | simp [loadJsCore, ha]
    · intro n hn
      simp [loadJsCore, hn]

/-- Witness for C9's amended theorem at three concrete parse outcomes: no
snapshot, an empty object (no field supplied), and an object supplying a
valid boolean `autoRest`. -/
theorem loadJs_spec_witness :
    loadJs none = defaultSlots ∧
    (loadJs (some (JsValue.jObj []))).data = defaultSlots.data ∧
    (loadJs (some (JsValue.jObj [("autoRest", JsValue.jBool false)]))).autoRest
      = false :=
  ⟨(loadJs_spec none).1 rfl,
   (((loadJs_spec (some (JsValue.jObj []))).2.2 (JsValue.jObj []) rfl
       (fun h => JsValue.noConfusion h)).1.1 rfl),
   ((((loadJs_spec (some (JsValue.jObj [("autoRest", JsValue.jBool false)]))).2.2
       (JsValue.jObj [("autoRest", JsValue.jBool false)]) rfl
       (fun h => JsValue.noConfusion h)).2.2.2.1.2) false rfl)⟩

/-! ### C8: manual navigation -/

/-- When not at the last exercise, `handleNext` stops the current interval
and increments the index. -/
theorem handleNext_eq_pos (s : AppState)
    (h : s.currentExerciseIndex < exercises.length - 1) :
    handleNext s = { stopIntervalFor (currentExercise s).name s with
      currentExerciseIndex := s.currentExerciseIndex + 1 } := by
  simp only [handleNext]
  rw [if_pos h]

/-- At the last exercise, `handleNext` does nothing. -/
theorem handleNext_eq_neg (s : AppState)
    (h : ¬ s.currentExerciseIndex < exercises.length - 1) :
    handleNext s = s := by
  simp only [handleNext]
  rw [if_neg h]

/-- When not at the first exercise, `handlePrev` stops the current interval
and decrements the index. -/
theorem handlePrev_eq_pos (s : AppState) (h : 0 < s.currentExerciseIndex) :
    handlePrev s = { stopIntervalFor (currentExercise s).name s with
      currentExerciseIndex := s.currentExerciseIndex - 1 } := by
  simp only [handlePrev]
  rw [if_pos h]

/-- At the first exercise, `handlePrev` does nothing. -/
theorem handlePrev_eq_neg (s : AppState) (h : ¬ 0 < s.currentExerciseIndex) :
    handlePrev s = s := by
  simp only [handlePrev]
  rw [if_neg h]

/-- C8: `handleNext`/`handlePrev` keep the index inside
`[0, catalogSize - 1]` with no wraparound (prev at 0 stays at 0, next at the
last index stays there), never change any timer, never turn any running flag
on, and whenever they actually move, the exercise being left has its running
flag set to false. -/
theorem navigation_spec (s : AppState) (n : String)
    (hs : s.currentExerciseIndex < exercises.length) :
    (handleNext s).currentExerciseIndex < exercises.length ∧
    (handlePrev s).currentExerciseIndex < exercises.length ∧
    (handleNext s).timers = s.timers ∧
    (handlePrev s).timers = s.timers ∧
    ((handleNext s).running n = true → s.running n = true) ∧
    ((handlePrev s).running n = true → s.running n = true) ∧
    ((handleNext s).currentExerciseIndex ≠ s.currentExerciseIndex →
      (handleNext s).running (currentExercise s).name = false) ∧
    ((handlePrev s).currentExerciseIndex ≠ s.currentExerciseIndex →
      (handlePrev s).running (currentExercise s).name = false) ∧
    (s.currentExerciseIndex = 0 → (handlePrev s).currentExerciseIndex = 0) ∧
    (s.currentExerciseIndex = exercises.length - 1 →
      (handleNext s).currentExerciseIndex = exercises.length - 1) := by
  have hnext5 :
      (handleNext s).currentExerciseIndex < exercises.length ∧
      (handleNext s).timers = s.timers ∧
      ((handleNext s).running n = true → s.running n = true) ∧
      ((handleNext s).currentExerciseIndex ≠ s.currentExerciseIndex →
        (handleNext s).running (currentExercise s).name = false) ∧
      (s.currentExerciseIndex = exercises.length - 1 →
        (handleNext s).currentExerciseIndex = exercises.length - 1) := by
    by_cases h : s.currentExerciseIndex < exercises.length - 1
    · rw [handleNext_eq_pos s h]
      refine ⟨?_, rfl, ?_, ?_, ?_⟩
      · show s.currentExerciseIndex + 1 < exercises.length
        omega
      · show (if n = (currentExercise s).name then false else s.running n) = true → _
        by_cases hn : n = (currentExercise s).name <;> simp [hn]
      · intro _
        show (if (currentExercise s).name = (currentExercise s).name
            then false else s.running (currentExercise s).name) = false
        simp
      · intro hlast
        omega
    · rw [handleNext_eq_neg s h]
      exact ⟨hs, rfl, fun h2 => h2, fun hne => absurd rfl hne, fun h2 => h2⟩
  have hprev5 :
      (handlePrev s).currentExerciseIndex < exercises.length ∧
      (handlePrev s).timers = s.timers ∧
      ((handlePrev s).running n = true → s.running n = true) ∧
      ((handlePrev s).currentExerciseIndex ≠ s.currentExerciseIndex →
        (handlePrev s).running (currentExercise s).name = false) ∧
      (s.currentExerciseIndex = 0 → (handlePrev s).currentExerciseIndex = 0) := by
    by_cases h : 0 < s.currentExerciseIndex
    · rw [handlePrev_eq_pos s h]
      refine ⟨?_, rfl, ?_, ?_, ?_⟩
      · show s.currentExerciseIndex - 1 < exercises.length
        omega
      · show (if n = (currentExercise s).name then false else s.running n) = true → _
        by_cases hn : n = (currentExercise s).name <;> simp [hn]
      · intro _
        show (if (currentExercise s).name = (currentExercise s).name
            then false else s.running (currentExercise s).name) = false
        simp
      · intro h0
        show s.currentExerciseIndex - 1 = 0
        omega
    · rw [handlePrev_eq_neg s h]
      exact ⟨hs, rfl, fun h2 => h2, fun hne => absurd rfl hne, fun h2 => h2⟩
  exact ⟨hnext5.1, hprev5.1, hnext5.2.1, hprev5.2.1, hnext5.2.2.1, hprev5.2.2.1,
    hnext5.2.2.2.1, hprev5.2.2.2.1, hprev5.2.2.2.2, hnext5.2.2.2.2⟩

/-- Witness for C8 at the initial state (index 0) and the Plank flag. -/
theorem navigation_spec_witness :
    initialState.currentExerciseIndex < exercises.length ∧
    (handlePrev initialState).currentExerciseIndex < exercises.length :=
  ⟨by decide, (navigation_spec initialState "Plank" (by decide)).2.1⟩

/-! ### Sequencer step lemmas -/

/-- Every catalog slot (and the out-of-range default) has a positive
`?? 30` duration. -/
theorem durNull30_getD_pos (j : Nat) :
    0 < durNull30 (exercises.getD j blankExercise) := by
  rcases Nat.lt_or_ge j 18 with h | h
  · interval_cases j <;> decide
  · rw [List.getD_eq_default]
    · decide
    · exact h

/-- The auto-advance effect is a no-op while the current exercise's elapsed
time is below its `?? 30` duration. -/
theorem autoAdvanceEffect_noop (s : AppState)
    (h : s.timers (currentExercise s).name < durNull30 (currentExercise s)) :
    autoAdvanceEffect s = s := by
  simp only [autoAdvanceEffect]
  rw [if_neg (by omega)]

/-- A tick that stays below the `|| 30` duration only increments the timer. -/
theorem exerciseTick_not_finished (ex : Exercise) (s : AppState)
    (h : s.timers ex.name + 1 < durOr30 ex) :
    exerciseTick ex s = { s with timers := fun n =>
      if n = ex.name then s.timers ex.name + 1 else s.timers n } := by
  have h2 : ¬ durOr30 ex ≤ s.timers ex.name + 1 := by omega
  simp only [exerciseTick, h2, if_false]

/-- A tick that reaches the `|| 30` duration pins the timer there and
force-marks the exercise complete for the current day. -/
theorem exerciseTick_finished (ex : Exercise) (s : AppState)
    (h : durOr30 ex ≤ s.timers ex.name + 1) :
    exerciseTick ex s = { s with
      timers := fun n => if n = ex.name then durOr30 ex else s.timers n
      data := markComplete s.day ex.name s.data } := by
  simp only [exerciseTick, h, if_true]

/-- A rest tick above 1 only decrements the countdown. -/
theorem restTick_dec (s : AppState) (h : ¬ s.restTimer ≤ 1) :
    restTick s = { s with restTimer := s.restTimer - 1 } := by
  simp only [restTick]
  rw [if_neg h]

/-- The final rest tick clears the rest state, advances the index, zeroes the
next exercise's timer and marks it running. -/
theorem restTick_end (s : AppState) (h : s.restTimer ≤ 1)
    (hi : s.currentExerciseIndex + 1 ≤ exercises.length - 1) :
    restTick s = { s with
      isResting := false
      restTimer := 0
      currentExerciseIndex := s.currentExerciseIndex + 1
      timers := fun n =>
        if n = (exercises.getD (s.currentExerciseIndex + 1) blankExercise).name
        then 0 else s.timers n
      running := fun n =>
        if n = (exercises.getD (s.currentExerciseIndex + 1) blankExercise).name
        then true else s.running n } := by
  have hmin : min (s.currentExerciseIndex + 1) (exercises.length - 1)
      = s.currentExerciseIndex + 1 := Nat.min_eq_left hi
  simp only [restTick, h, if_true, hmin]
  rfl

/-- On a finished last exercise the effect only stops the interval. -/
theorem autoAdvanceEffect_last (s : AppState)
    (hfin : durNull30 (currentExercise s) ≤ s.timers (currentExercise s).name)
    (hlast : ¬ s.currentExerciseIndex < exercises.length - 1) :
    autoAdvanceEffect s = stopIntervalFor (currentExercise s).name s := by
  have h1 : ¬ ((stopIntervalFor (currentExercise s).name s).autoRest = true ∧
      (stopIntervalFor (currentExercise s).name s).currentExerciseIndex
        < exercises.length - 1) := fun hc => hlast hc.2
  have h2 : ¬ (stopIntervalFor (currentExercise s).name s).currentExerciseIndex
      < exercises.length - 1 := hlast
  simp only [autoAdvanceEffect]
  rw [if_pos hfin, if_neg h1, if_neg h2]

/-- On a finished non-last exercise with auto-rest on, the effect stops the
interval and opens a rest window of `restSeconds`. -/
theorem autoAdvanceEffect_rest (s : AppState)
    (hfin : durNull30 (currentExercise s) ≤ s.timers (currentExercise s).name)
    (har : s.autoRest = true)
    (hi : s.currentExerciseIndex < exercises.length - 1) :
    autoAdvanceEffect s = { stopIntervalFor (currentExercise s).name s with
      isResting := true, restTimer := s.restSeconds } := by
  have h1 : (stopIntervalFor (currentExercise s).name s).autoRest = true ∧
      (stopIntervalFor (currentExercise s).name s).currentExerciseIndex
        < exercises.length - 1 := And.intro har hi
  simp only [autoAdvanceEffect]
  rw [if_pos hfin, if_pos h1]
  rfl

/-- One second while resting above 1 decrements the countdown. -/
theorem secondStep_resting_dec (s : AppState) (hres : s.isResting = true)
    (h : ¬ s.restTimer ≤ 1) :
    secondStep s = { s with restTimer := s.restTimer - 1 } := by
  simp only [secondStep]
  rw [if_pos hres, if_neg h, restTick_dec _ h]

/-- One second while resting at (or below) 1 runs the final rest tick and
then the auto-advance effect. -/
theorem secondStep_resting_end (s : AppState) (hres : s.isResting = true)
    (h : s.restTimer ≤ 1) :
    secondStep s = autoAdvanceEffect (restTick s) := by
  simp only [secondStep]
  rw [if_pos hres, if_pos h]

/-- One second while the current exercise runs is a tick followed by the
auto-advance effect. -/
theorem secondStep_running_eq (s : AppState) (hnr : s.isResting = false)
    (hrun : s.running (currentExercise s).name = true) :
    secondStep s = autoAdvanceEffect (exerciseTick (currentExercise s) s) := by
  simp only [secondStep]
  rw [if_neg (by simp [hnr]), if_pos hrun]

/-- One second of a running exercise strictly below its duration only
advances its timer. -/
theorem secondStep_running_below (s : AppState) (D : Nat)
    (hD : (currentExercise s).duration = some D) (hpos : 0 < D)
    (hnr : s.isResting = false)
    (hrun : s.running (currentExercise s).name = true)
    (hbelow : s.timers (currentExercise s).name + 1 < D) :
    secondStep s = { s with
      timers := fun n =>
        if n = (currentExercise s).name then s.timers (currentExercise s).name + 1
        else s.timers n } := by
  have hdur : durOr30 (currentExercise s) = D := by
    simp only [durOr30, hD]
    rw [if_neg (by omega)]
  simp only [secondStep, hnr, Bool.false_eq_true, if_false, hrun, if_true]
  rw [exerciseTick_not_finished _ _ (by omega)]
  rw [hnr]
  exact autoAdvanceEffect_noop _ (by
    show (if (currentExercise s).name = (currentExercise s).name
        then s.timers (currentExercise s).name + 1
        else s.timers (currentExercise s).name) < durNull30 (currentExercise s)
    rw [if_pos rfl]
    have hdn : durNull30 (currentExercise s) = D := by simp [durNull30, hD]
    omega)

/-- After `k < D` seconds from a fresh start, the running exercise's timer
reads `k` and nothing else has changed. -/
theorem run_phase (s : AppState) (D : Nat)
    (hD : (currentExercise s).duration = some D)
    (hrun : s.running (currentExercise s).name = true)
    (ht : s.timers (currentExercise s).name = 0)
    (hnr : s.isResting = false)
    (k : Nat) : k < D →
    secondStep^[k] s = { s with
      timers := fun n => if n = (currentExercise s).name then k else s.timers n } := by
  induction k with
  | zero =>
    intro _
    simp only [Function.iterate_zero, id_eq]
    have htimers : (fun n => if n = (currentExercise s).name then 0 else s.timers n)
        = s.timers := by
      funext n
      by_cases hn : n = (currentExercise s).name
      · rw [if_pos hn, hn, ht]
      · rw [if_neg hn]
    rw [htimers]
  | succ k ih =>
    intro hk
    rw [Function.iterate_succ_apply', ih (by omega)]
    set T : AppState := { s with
      timers := fun n => if n = (currentExercise s).name then k else s.timers n } with hT
    have hstep := secondStep_running_below T D hD (by omega) hnr hrun (by
      show (if (currentExercise s).name = (currentExercise s).name
          then k else s.timers (currentExercise s).name) + 1 < D
      rw [if_pos rfl]
      omega)
    rw [hstep]
    congr 1
    funext n
    by_cases hn : n = (currentExercise s).name
    · subst hn
      simp [hT, currentExercise]
    · simp [currentExercise] at hn
      simp [hT, hn, currentExercise]

/-- After `j` seconds of rest the countdown has dropped by `j` (while `j`
stays below the countdown). -/
theorem rest_phase (s : AppState) (hres : s.isResting = true) (j : Nat) :
    j < s.restTimer →
    secondStep^[j] s = { s with restTimer := s.restTimer - j } := by
  induction j with
  | zero =>
    intro _
    simp only [Function.iterate_zero, id_eq, Nat.sub_zero]
  | succ j ih =>
    intro hj
    rw [Function.iterate_succ_apply', ih (by omega)]
    set T : AppState := { s with restTimer := s.restTimer - j } with hT
    rw [secondStep_resting_dec T hres (by
      show ¬ s.restTimer - j ≤ 1
      omega)]
    congr 1

/-- The second in which the last exercise reaches its duration: the timer is
pinned, the exercise is force-marked complete, its interval stops, and
nothing else changes. -/
theorem secondStep_finish_last (s : AppState) (D : Nat)
    (hD : (currentExercise s).duration = some D) (hpos : 0 < D)
    (hnr : s.isResting = false)
    (hlast : ¬ s.currentExerciseIndex < exercises.length - 1)
    (hrun : s.running (currentExercise s).name = true)
    (hat : s.timers (currentExercise s).name + 1 = D) :
    secondStep s = { s with
      timers := fun n => if n = (currentExercise s).name then D else s.timers n
      data := markComplete s.day (currentExercise s).name s.data
      running := fun n => if n = (currentExercise s).name then false
        else s.running n } := by
  have hdur : durOr30 (currentExercise s) = D := by
    simp only [durOr30, hD]
    rw [if_neg (by omega)]
  have hdn : durNull30 (currentExercise s) = D := by simp [durNull30, hD]
  rw [secondStep_running_eq s hnr hrun]
  rw [exerciseTick_finished _ _ (by omega)]
  set T : AppState := { s with
    timers := fun n =>
      if n = (currentExercise s).name then durOr30 (currentExercise s)
      else s.timers n
    data := markComplete s.day (currentExercise s).name s.data } with hT
  have hfin : durNull30 (currentExercise T) ≤ T.timers (currentExercise T).name := by
    show durNull30 (currentExercise s)
      ≤ (if (currentExercise s).name = (currentExercise s).name
          then durOr30 (currentExercise s) else s.timers (currentExercise s).name)
    rw [if_pos rfl]
    omega
  rw [autoAdvanceEffect_last T hfin hlast]
  have hdur2 : durOr30 (exercises[s.currentExerciseIndex]?.getD blankExercise) = D := by
    simpa [currentExercise] using hdur
  simp only [stopIntervalFor]
  congr 1
  all_goals
    funext n
    by_cases hn : n = (currentExercise s).name
    · subst hn
      simp [hT, hdur, hdur2, currentExercise]
    · simp [currentExercise] at hn
      simp [hT, hn, currentExercise]

/-- The second in which a non-last exercise reaches its duration with
auto-rest on: the timer is pinned, the exercise is force-marked complete, its
interval stops, and a rest window of `restSeconds` opens. -/
theorem secondStep_finish_rest (s : AppState) (D : Nat)
    (hD : (currentExercise s).duration = some D) (hpos : 0 < D)
    (hnr : s.isResting = false)
    (har : s.autoRest = true)
    (hi : s.currentExerciseIndex < exercises.length - 1)
    (hrun : s.running (currentExercise s).name = true)
    (hat : s.timers (currentExercise s).name + 1 = D) :
    secondStep s = { s with
      timers := fun n => if n = (currentExercise s).name then D else s.timers n
      data := markComplete s.day (currentExercise s).name s.data
      running := fun n => if n = (currentExercise s).name then false
        else s.running n
      isResting := true
      restTimer := s.restSeconds } := by
  have hdur : durOr30 (currentExercise s) = D := by
    simp only [durOr30, hD]
    rw [if_neg (by omega)]
  have hdn : durNull30 (currentExercise s) = D := by simp [durNull30, hD]
  rw [secondStep_running_eq s hnr hrun]
  rw [exerciseTick_finished _ _ (by omega)]
  set T : AppState := { s with
    timers := fun n =>
      if n = (currentExercise s).name then durOr30 (currentExercise s)
      else s.timers n
    data := markComplete s.day (currentExercise s).name s.data } with hT
  have hfin : durNull30 (currentExercise T) ≤ T.timers (currentExercise T).name := by
    show durNull30 (currentExercise s)
      ≤ (if (currentExercise s).name = (currentExercise s).name
          then durOr30 (currentExercise s) else s.timers (currentExercise s).name)
    rw [if_pos rfl]
    omega
  rw [autoAdvanceEffect_rest T hfin har hi]
  have hdur2 : durOr30 (exercises[s.currentExerciseIndex]?.getD blankExercise) = D := by
    simpa [currentExercise] using hdur
  simp only [stopIntervalFor]
  congr 1
  all_goals
    funext n
    by_cases hn : n = (currentExercise s).name
    · subst hn
      simp [hT, hdur, hdur2, currentExercise]
    · simp [currentExercise] at hn
      simp [hT, hn, currentExercise]

/-- Running a full rest window to completion: after `restTimer` seconds the
rest state is cleared, the index has advanced by one, and the next exercise
has a zero timer and a running clock. -/
theorem rest_run (s : AppState) (hres : s.isResting = true) (hR : 0 < s.restTimer)
    (hi : s.currentExerciseIndex + 1 ≤ exercises.length - 1) :
    (secondStep^[s.restTimer] s).isResting = false ∧
    (secondStep^[s.restTimer] s).currentExerciseIndex = s.currentExerciseIndex + 1 ∧
    (secondStep^[s.restTimer] s).timers
      (exercises.getD (s.currentExerciseIndex + 1) blankExercise).name = 0 ∧
    (secondStep^[s.restTimer] s).running
      (exercises.getD (s.currentExerciseIndex + 1) blankExercise).name = true := by
  obtain ⟨R0, hR0⟩ : ∃ R0, s.restTimer = R0 + 1 := ⟨s.restTimer - 1, by omega⟩
  rw [hR0, Function.iterate_succ_apply']
  rw [rest_phase s hres R0 (by omega)]
  set U : AppState := { s with restTimer := s.restTimer - R0 } with hU
  have hU1 : U.restTimer ≤ 1 := by
    show s.restTimer - R0 ≤ 1
    omega
  rw [secondStep_resting_end U hres hU1]
  rw [restTick_end U hU1 hi]
  set F : AppState := { U with
    isResting := false
    restTimer := 0
    currentExerciseIndex := U.currentExerciseIndex + 1
    timers := fun n =>
      if n = (exercises.getD (U.currentExerciseIndex + 1) blankExercise).name
      then 0 else U.timers n
    running := fun n =>
      if n = (exercises.getD (U.currentExerciseIndex + 1) blankExercise).name
      then true else U.running n } with hF
  have hFt : F.timers (currentExercise F).name = 0 := if_pos rfl
  have hhyp : F.timers (currentExercise F).name < durNull30 (currentExercise F) := by
    rw [hFt]
    exact durNull30_getD_pos (U.currentExerciseIndex + 1)
  rw [autoAdvanceEffect_noop F hhyp]
  exact ⟨rfl, rfl, if_pos rfl, if_pos rfl⟩

/-! ### C4: finishing the last exercise -/

/-- C4: when the last catalog exercise's timer reaches its configured
duration, one second later the index is unchanged, no rest is started
(whatever `autoRest` is), the exercise's clock is stopped (Paused), the
exercise is force-marked complete for the current day, and its timer is
pinned at the duration. -/
theorem lastExercise_pauses (s : AppState) (D : Nat)
    (hlast : s.currentExerciseIndex = exercises.length - 1)
    (hD : (currentExercise s).duration = some D) (hpos : 0 < D)
    (hrun : s.running (currentExercise s).name = true)
    (hat : s.timers (currentExercise s).name + 1 = D)
    (hnr : s.isResting = false) :
    (secondStep s).currentExerciseIndex = s.currentExerciseIndex ∧
    (secondStep s).isResting = false ∧
    (secondStep s).restTimer = s.restTimer ∧
    (secondStep s).running (currentExercise s).name = false ∧
    completionStatus (secondStep s).data s.day (currentExercise s).name = true ∧
    (secondStep s).timers (currentExercise s).name = D := by
  rw [secondStep_finish_last s D hD hpos hnr (by omega) hrun hat]
  refine ⟨rfl, hnr, rfl, ?_, ?_, ?_⟩
  · show (if (currentExercise s).name = (currentExercise s).name then false
      else s.running (currentExercise s).name) = false
    rw [if_pos rfl]
  · exact completionStatus_markComplete s.data s.day (currentExercise s).name
  · show (if (currentExercise s).name = (currentExercise s).name then D
      else s.timers (currentExercise s).name) = D
    rw [if_pos rfl]

/-- A state one second short of finishing the last catalog exercise. -/
def lastExerciseNearEnd : AppState :=
  { initialState with
    currentExerciseIndex := 17
    timers := fun n => if n == "Brisk Walk / Cardio" then 119 else 0
    running := fun n => n == "Brisk Walk / Cardio" }

/-- Witness for C4 at the concrete state: the last exercise (Brisk Walk /
Cardio, 120 s) at 119 elapsed seconds. -/
theorem lastExercise_pauses_witness :
    lastExerciseNearEnd.currentExerciseIndex = exercises.length - 1 ∧
    (currentExercise lastExerciseNearEnd).duration = some 120 ∧
    lastExerciseNearEnd.timers (currentExercise lastExerciseNearEnd).name + 1 = 120 ∧
    ((secondStep lastExerciseNearEnd).currentExerciseIndex
       = lastExerciseNearEnd.currentExerciseIndex ∧
     (secondStep lastExerciseNearEnd).isResting = false ∧
     (secondStep lastExerciseNearEnd).restTimer = lastExerciseNearEnd.restTimer ∧
     (secondStep lastExerciseNearEnd).running
       (currentExercise lastExerciseNearEnd).name = false ∧
     completionStatus (secondStep lastExerciseNearEnd).data lastExerciseNearEnd.day
       (currentExercise lastExerciseNearEnd).name = true ∧
     (secondStep lastExerciseNearEnd).timers
       (currentExercise lastExerciseNearEnd).name = 120) :=
  ⟨by decide, by decide, by decide,
    lastExercise_pauses lastExerciseNearEnd 120 (by decide) (by decide) (by decide)
      (by decide) (by decide) (by decide)⟩

/-! ### C3: duration, auto-rest and advance -/

/-- C3: from a fresh start of a non-last exercise with configured duration D,
auto-rest on and rest duration R positive, after D seconds the sequencer is
resting with the countdown at R, the index unchanged, the exercise
force-marked complete for the current day and its clock stopped; after R
further seconds the rest state is cleared, the index has advanced by one, and
the next exercise has a zero timer and a running clock. -/
theorem autoRest_sequence (s : AppState) (D : Nat)
    (hi : s.currentExerciseIndex < exercises.length - 1)
    (hD : (currentExercise s).duration = some D) (hpos : 0 < D)
    (hrun : s.running (currentExercise s).name = true)
    (ht : s.timers (currentExercise s).name = 0)
    (hnr : s.isResting = false)
    (har : s.autoRest = true)
    (hR : 0 < s.restSeconds) :
    ((secondStep^[D] s).isResting = true ∧
     (secondStep^[D] s).restTimer = s.restSeconds ∧
     (secondStep^[D] s).currentExerciseIndex = s.currentExerciseIndex ∧
     completionStatus (secondStep^[D] s).data s.day (currentExercise s).name = true ∧
     (secondStep^[D] s).running (currentExercise s).name = false) ∧
    ((secondStep^[s.restSeconds] (secondStep^[D] s)).isResting = false ∧
     (secondStep^[s.restSeconds] (secondStep^[D] s)).currentExerciseIndex
       = s.currentExerciseIndex + 1 ∧
     (secondStep^[s.restSeconds] (secondStep^[D] s)).timers
       (exercises.getD (s.currentExerciseIndex + 1) blankExercise).name = 0 ∧
     (secondStep^[s.restSeconds] (secondStep^[D] s)).running
       (exercises.getD (s.currentExerciseIndex + 1) blankExercise).name = true) := by
  have hA : secondStep^[D] s = { s with
      timers := fun n => if n = (currentExercise s).name then D else s.timers n
      data := markComplete s.day (currentExercise s).name s.data
      running := fun n => if n = (currentExercise s).name then false else s.running n
      isResting := true
      restTimer := s.restSeconds } := by
    obtain ⟨D0, rfl⟩ : ∃ D0, D = D0 + 1 := ⟨D - 1, by omega⟩
    rw [Function.iterate_succ_apply']
    rw [run_phase s (D0 + 1) hD hrun ht hnr D0 (by omega)]
    set T : AppState := { s with
      timers := fun n => if n = (currentExercise s).name then D0 else s.timers n } with hT
    rw [secondStep_finish_rest T (D0 + 1) hD hpos hnr har hi hrun (by
      show (if (currentExercise s).name = (currentExercise s).name
          then D0 else s.timers (currentExercise s).name) + 1 = D0 + 1
      rw [if_pos rfl])]
    congr 1
    all_goals
      first
      | rfl
      | (funext n
         by_cases hn : n = (currentExercise s).name
         · subst hn
           simp [hT, currentExercise]
         · simp [currentExercise] at hn
           simp [hT, hn, currentExercise])
  rw [hA]
  set SD : AppState := { s with
      timers := fun n => if n = (currentExercise s).name then D else s.timers n
      data := markComplete s.day (currentExercise s).name s.data
      running := fun n => if n = (currentExercise s).name then false else s.running n
      isResting := true
      restTimer := s.restSeconds } with hSD
  constructor
  · refine ⟨rfl, rfl, rfl,
      completionStatus_markComplete s.data s.day (currentExercise s).name, ?_⟩
    show (if (currentExercise s).name = (currentExercise s).name then false
        else s.running (currentExercise s).name) = false
    rw [if_pos rfl]
  · have h := rest_run SD rfl
      (by show 0 < s.restSeconds; exact hR)
      (by show s.currentExerciseIndex + 1 ≤ exercises.length - 1; omega)
    exact ⟨h.1, h.2.1, h.2.2.1, h.2.2.2⟩

/-- A fresh guided-workout start: index 0 (Cat-Cow, 30 s), its clock running,
all timers zero, auto-rest on with 20 s of rest. -/
def workoutStart : AppState :=
  { initialState with running := fun n => n == "Cat-Cow" }

/-- Witness for C3 at the concrete fresh start (D = 30, R = 20). -/
theorem autoRest_sequence_witness :
    workoutStart.currentExerciseIndex < exercises.length - 1 ∧
    (currentExercise workoutStart).duration = some 30 ∧
    workoutStart.running (currentExercise workoutStart).name = true ∧
    workoutStart.autoRest = true ∧ workoutStart.restSeconds = 20 ∧
    (((secondStep^[30] workoutStart).isResting = true ∧
      (secondStep^[30] workoutStart).restTimer = workoutStart.restSeconds ∧
      (secondStep^[30] workoutStart).currentExerciseIndex
        = workoutStart.currentExerciseIndex ∧
      completionStatus (secondStep^[30] workoutStart).data workoutStart.day
        (currentExercise workoutStart).name = true ∧
      (secondStep^[30] workoutStart).running (currentExercise workoutStart).name
        = false) ∧
     ((secondStep^[workoutStart.restSeconds] (secondStep^[30] workoutStart)).isResting
        = false ∧
      (secondStep^[workoutStart.restSeconds]
          (secondStep^[30] workoutStart)).currentExerciseIndex
        = workoutStart.currentExerciseIndex + 1 ∧
      (secondStep^[workoutStart.restSeconds] (secondStep^[30] workoutStart)).timers
        (exercises.getD (workoutStart.currentExerciseIndex + 1) blankExercise).name
        = 0 ∧
      (secondStep^[workoutStart.restSeconds] (secondStep^[30] workoutStart)).running
        (exercises.getD (workoutStart.currentExerciseIndex + 1) blankExercise).name
        = true)) :=
  ⟨by decide, by decide, by decide, by decide, by decide,
    autoRest_sequence workoutStart 30 (by decide) (by decide) (by decide)
      (by decide) (by decide) (by decide) (by decide) (by decide)⟩

end MyGym
